import Mathlib

/-!
Shallow embedding of `src/extension.ts` of the vscode-assembly-runner
repository.  External effects (process spawning, user notifications,
file deletion, terminal writes) are recorded in an event trace; the
mutable module state (`currentDebugFileExecutable`, `stoppingExecutable`,
the `asm.showStopIconInEditorTitleMenu` running flag, and the diagnostic
collection) is threaded explicitly as a `SessionState`.  Promise
semantics are modelled by `Except`: a rejected promise is `Except.error`,
and once a promise has settled, later `resolve`/`reject` calls in the
source are no-ops (first settlement wins), which the embedding reflects
by returning the first settled value while still recording the events
that the continuing callback code produces.
-/

namespace AsmRunner

/-- Severity of an editor diagnostic; the source only ever constructs
`vscode.DiagnosticSeverity.Error`. -/
inductive Severity where
  | error
deriving DecidableEq

/-- One editor diagnostic: the 0-based start line of its range (the source
builds the range from `Number(lineNumber) - 1`) and its message. -/
structure Diag where
  startLine : Nat
  message : String
  severity : Severity
deriving DecidableEq

/-- Result of one `exec` call: `error = some msg` models a non-null `error`
argument with `error.message = msg`; `stdout` is the captured output. -/
structure ExecResult where
  error : Option String
  stdout : String

/-- Ambient inputs of a command invocation: the configured
`asm.executablePath` value (empty string models unset), the text the user
would type into the input box prompt (empty models cancellation), the
active editor's file name if any, the `asm.showTerminalInDebugMode`
setting, and an oracle giving the outcome of `exec` for each command
line. -/
structure World where
  config : String
  inputBox : String
  activeFile : Option String
  showTerminal : Bool
  exec : String → ExecResult

/-- Module-level mutable state of `extension.ts`: the tracked target
executable name, the intentional-termination flag, the running flag
(the `asm.showStopIconInEditorTitleMenu` configuration written by
`setRunningState`), and the diagnostic collection (entries keyed by
file name). -/
structure SessionState where
  currentDebugFileExecutable : String
  stoppingExecutable : Bool
  running : Bool
  diagnostics : List (String × List Diag)
deriving DecidableEq

/-- Observable external effects, in order of occurrence. -/
inductive Event where
  | spawn (cmd : String)
  | notify (msg : String)
  | delete (file : String)
  | termSend (text : String)
deriving DecidableEq

/-- Substring test on character lists: `containsSub hay needle` is true
iff `needle` occurs contiguously in `hay` (the semantics of JavaScript
`String.prototype.includes`). -/
def containsSub : List Char → List Char → Bool
  | _, [] => true
  | [], _ :: _ => false
  | a :: as, b :: bs => (List.isPrefixOf (b :: bs) (a :: as)) || containsSub as (b :: bs)

/-- JavaScript `stdout.toLowerCase().includes(needle.toLowerCase())`. -/
def includesCI (hay needle : String) : Bool :=
  containsSub (hay.data.map Char.toLower) (needle.data.map Char.toLower)

/-- JavaScript `s.split(sep)` for a single-character separator, on the
character list: splitting an empty string yields one empty piece, and a
trailing separator yields a trailing empty piece. -/
def jsSplit (sep : Char) : List Char → List (List Char)
  | [] => [[]]
  | c :: rest =>
    if c = sep then [] :: jsSplit sep rest
    else
      match jsSplit sep rest with
      | [] => [[c]]
      | piece :: pieces => (c :: piece) :: pieces

/-- JavaScript `s.split(sep)` as a list of strings. -/
def jsSplitStr (s : String) (sep : Char) : List String :=
  (jsSplit sep s.data).map String.mk

/-- JavaScript `s.slice(0, -3)`: the string without its final three
characters (empty when the string has three or fewer). -/
def jsSlice3 (s : String) : String :=
  String.mk (s.data.take (s.data.length - 3))

/-- Decimal value of a digit string, as JavaScript `Number` computes it on
an all-digit string. -/
def digitsToNat (ds : List Char) : Nat :=
  ds.foldl (fun n c => 10 * n + (c.toNat - 48)) 0

/-- Leftmost match of the pattern `/:(\d+):/` — a colon, one or more
digits, then a colon — returning the captured digit run, exactly as the
regular-expression match in `startExecutable` finds it. -/
def findColonNum : List Char → Option (List Char)
  | [] => none
  | c :: rest =>
    if c = ':' then
      let ds := rest.takeWhile Char.isDigit
      if ds ≠ [] ∧ (rest.dropWhile Char.isDigit).head? = some ':' then some ds
      else findColonNum rest
    else findColonNum rest

/-- Error Locator of `startExecutable` (lines 172-196 of the source):
split the error text on newlines, and when a second line exists, search
it with `/:(\d+):/`; on a match return the digits as a number together
with the full second line. -/
def locate (errorText : String) : Option (Nat × String) :=
  let splitError := jsSplitStr errorText '\n'
  if h : 1 < splitError.length then
    match findColonNum (splitError.get ⟨1, h⟩).data with
    | some ds => some (digitsToNat ds, splitError.get ⟨1, h⟩)
    | none => none
  else none

/-- Command line `taskkill /F /IM <executable>` issued by
`killExecutable`. -/
def taskkillCmd (executable : String) : String :=
  "taskkill /F /IM " ++ executable

/-- Embedding of `killExecutable` (source lines 140-163).  `tasklist` is
run first; a `tasklist` error rejects the promise (the callback continues
afterwards, which can still spawn `taskkill`, but the rejection stands).
When the (lowercased) listing contains the executable name, `taskkill` is
run; a `taskkill` error is swallowed by resolving with the marker value
"error", otherwise the promise resolves with the `taskkill` output.  When
the name is not listed the promise resolves with the listing output. -/
def killExecutable (w : World) (executable : String) : Except String String × List Event :=
  let r := w.exec "tasklist"
  if includesCI r.stdout executable then
    let k := w.exec (taskkillCmd executable)
    let result : Except String String :=
      match r.error with
      | some e => Except.error e
      | none =>
        match k.error with
        | some _ => Except.ok "error"
        | none => Except.ok k.stdout
    (result, [Event.spawn "tasklist", Event.spawn (taskkillCmd executable)])
  else
    match r.error with
    | some e => (Except.error e, [Event.spawn "tasklist"])
    | none => (Except.ok r.stdout, [Event.spawn "tasklist"])

/-- Embedding of `stopDebugging` (source lines 116-128): set the
intentional-termination flag, kill `ollydbg.exe`, then kill the tracked
target executable when its name is non-empty, then clear the running
flag and the intentional-termination flag.  A rejection from either
`killExecutable` call propagates, leaving the flags as they are at that
point. -/
def stopDebugging (w : World) (s : SessionState) : Except String Unit × SessionState × List Event :=
  let s1 : SessionState := { s with stoppingExecutable := true }
  match killExecutable w "ollydbg.exe" with
  | (Except.error e, ev1) => (Except.error e, s1, ev1)
  | (Except.ok _, ev1) =>
    if s1.currentDebugFileExecutable ≠ "" then
      match killExecutable w s1.currentDebugFileExecutable with
      | (Except.error e, ev2) => (Except.error e, s1, ev1 ++ ev2)
      | (Except.ok _, ev2) =>
        (Except.ok (), { s1 with running := false, stoppingExecutable := false }, ev1 ++ ev2)
    else
      (Except.ok (), { s1 with running := false, stoppingExecutable := false }, ev1)

/-- Replacement of a file's entry in the diagnostic collection, the
effect of `diagnosticCollection.set(uri, diagnostics)`. -/
def setDiag (ds : List (String × List Diag)) (file : String) (diags : List Diag) :
    List (String × List Diag) :=
  (ds.filter (fun p => p.1 ≠ file)) ++ [(file, diags)]

/-- Embedding of `startExecutable` (source lines 165-209): run the
command; on an `exec` error while no intentional stop is in progress,
parse the error message — when a second line exists and matches
`/:(\d+):/`, register a single error diagnostic at the extracted line of
the active file and show an error notification, then reject with the
second line; with a second line but no match, reject with the second
line; with fewer than two lines, reject with the whole message.  When
the intentional-termination flag is set, or there is no error, resolve
with the captured output and change nothing. -/
def startExecutable (w : World) (s : SessionState) (executable : String) :
    Except String String × SessionState × List Event :=
  let documentFileName := w.activeFile.getD ""
  let r := w.exec executable
  match r.error with
  | some errMsg =>
    if s.stoppingExecutable = false then
      let splitError := jsSplitStr errMsg '\n'
      if h : 1 < splitError.length then
        match locate errMsg with
        | some (n, m) =>
          let diag : Diag := ⟨n - 1, m, Severity.error⟩
          (Except.error ("Errors: " ++ m),
           { s with diagnostics := setDiag s.diagnostics documentFileName [diag] },
           [Event.spawn executable, Event.notify ("Error: " ++ m)])
        | none =>
          (Except.error ("Errors: " ++ splitError.get ⟨1, h⟩), s, [Event.spawn executable])
      else
        (Except.error ("Error: " ++ errMsg), s, [Event.spawn executable])
    else
      (Except.ok r.stdout, s, [Event.spawn executable])
  | none => (Except.ok r.stdout, s, [Event.spawn executable])

/-- Embedding of `getExecutablePath` (source lines 88-114): return the
configured path when non-empty; otherwise prompt with an input box and
return what the user typed (saving it and showing an information
message), or show a warning and return the empty value when the prompt
is dismissed. -/
def getExecutablePath (w : World) : String × List Event :=
  if w.config ≠ "" then (w.config, [])
  else if w.inputBox ≠ "" then
    (w.inputBox, [Event.notify ("Saved executable path: " ++ w.inputBox)])
  else ("", [Event.notify "No executable path set."])

/-- Toolchain path a command invocation ends up with. -/
def pathOf (w : World) : String := (getExecutablePath w).1

/-- Assembler command line built by `debugCommand` and `runCommand` (the
two build identical strings). -/
def nasmCommandOf (p f lst : String) : String :=
  "\"" ++ p ++ "\"\\nasm\\nasm.exe -fobj \"" ++ f ++ "\" -l \"" ++ lst ++
    "\" -I\"" ++ p ++ "\"\\nasm\\\\"

/-- Linker command line; the console-subsystem flag is included when
`console` is true (always in `runCommand`, governed by the
`asm.showTerminalInDebugMode` setting in `debugCommand`). -/
def alinkCommandOf (p obj : String) (console : Bool) : String :=
  if console then
    "\"" ++ p ++ "\\nasm\\ALINK.EXE\" -oPE -subsys console -entry start \"" ++ obj ++ "\""
  else
    "\"" ++ p ++ "\\nasm\\ALINK.EXE\" -oPE -entry start \"" ++ obj ++ "\""

/-- Debugger command line built by `debugCommand`. -/
def ollydbgCommandOf (p exe : String) : String :=
  "\"" ++ p ++ "\\ollydbg\\ollydbg.exe\" \"" ++ exe ++ "\""

/-- Derived artifact paths (`lstFile`, `objFile`, `exeFile`) as
`debugCommand` computes them (source lines 226-228): `slice(0, -3)` of
the source path with the new extension appended. -/
def debugArtifacts (currentFile : String) : String × String × String :=
  (jsSlice3 currentFile ++ "lst", jsSlice3 currentFile ++ "obj", jsSlice3 currentFile ++ "exe")

/-- Derived artifact paths as `runCommand` computes them (source lines
283-285). -/
def runArtifacts (currentFile : String) : String × String × String :=
  (jsSlice3 currentFile ++ "lst", jsSlice3 currentFile ++ "obj", jsSlice3 currentFile ++ "exe")

/-- Base name of the produced executable, `(slice(0,-3) + "exe").split("\\").pop()`. -/
def fileExecutableNameOf (currentFile : String) : String :=
  (jsSplitStr (jsSlice3 currentFile ++ "exe") '\\').getLastD ""

/-- Embedding of `debugCommand` (source lines 211-256).  Order of
effects follows the source: `stopDebugging` first, then the toolchain
path is resolved and checked, then the active editor is checked, then
artifact paths and command lines are computed, the target name is
recorded and the diagnostics cleared, the assembler and linker are run
(each rejection aborting the command), the running flag is set, the
debugger is run (a rejection aborts, skipping the flag reset and the
deletions), the flag is cleared and the three artifacts deleted. -/
def debugCommand (w : World) (s : SessionState) : Except String Unit × SessionState × List Event :=
  match stopDebugging w s with
  | (Except.error e, s1, ev0) => (Except.error e, s1, ev0)
  | (Except.ok _, s1, ev0) =>
    let pe := getExecutablePath w
    let executablePath := pe.1
    let ev1 := pe.2
    if executablePath = "" then
      (Except.ok (), s1, ev0 ++ ev1 ++ [Event.notify "No executable path set!"])
    else
      match w.activeFile with
      | none => (Except.ok (), s1, ev0 ++ ev1 ++ [Event.notify "No active editor!"])
      | some currentFile =>
        let lstFile := (debugArtifacts currentFile).1
        let objFile := (debugArtifacts currentFile).2.1
        let exeFile := (debugArtifacts currentFile).2.2
        let nasmCommand := nasmCommandOf executablePath currentFile lstFile
        let alinkCommand := alinkCommandOf executablePath objFile w.showTerminal
        let ollydbgCommand := ollydbgCommandOf executablePath exeFile
        let s2 : SessionState :=
          { s1 with currentDebugFileExecutable := fileExecutableNameOf currentFile,
                    diagnostics := [] }
        match startExecutable w s2 nasmCommand with
        | (Except.error e, s3, ev2) => (Except.error e, s3, ev0 ++ ev1 ++ ev2)
        | (Except.ok _, s3, ev2) =>
          match startExecutable w s3 alinkCommand with
          | (Except.error e, s4, ev3) => (Except.error e, s4, ev0 ++ ev1 ++ ev2 ++ ev3)
          | (Except.ok _, s4, ev3) =>
            let s5 : SessionState := { s4 with running := true }
            match startExecutable w s5 ollydbgCommand with
            | (Except.error e, s6, ev4) =>
              (Except.error e, s6, ev0 ++ ev1 ++ ev2 ++ ev3 ++ ev4)
            | (Except.ok _, s6, ev4) =>
              let s7 : SessionState := { s6 with running := false }
              (Except.ok (), s7,
               ev0 ++ ev1 ++ ev2 ++ ev3 ++ ev4 ++
                 [Event.delete lstFile, Event.delete objFile, Event.delete exeFile])

/-- Embedding of `runCommand` (source lines 270-306): `stopDebugging`,
the same precondition checks, artifact and command construction (linker
always with the console subsystem), diagnostics cleared, assembler and
linker run, then the executable invocation text is sent to a fresh
terminal and the target name is recorded. -/
def runCommand (w : World) (s : SessionState) : Except String Unit × SessionState × List Event :=
  match stopDebugging w s with
  | (Except.error e, s1, ev0) => (Except.error e, s1, ev0)
  | (Except.ok _, s1, ev0) =>
    let pe := getExecutablePath w
    let executablePath := pe.1
    let ev1 := pe.2
    if executablePath = "" then
      (Except.ok (), s1, ev0 ++ ev1 ++ [Event.notify "No executable path set!"])
    else
      match w.activeFile with
      | none => (Except.ok (), s1, ev0 ++ ev1 ++ [Event.notify "No active editor!"])
      | some currentFile =>
        let lstFile := (runArtifacts currentFile).1
        let objFile := (runArtifacts currentFile).2.1
        let exeFile := (runArtifacts currentFile).2.2
        let nasmCommand := nasmCommandOf executablePath currentFile lstFile
        let alinkCommand := alinkCommandOf executablePath objFile true
        let runCmd := "\"" ++ exeFile ++ "\""
        let s2 : SessionState := { s1 with diagnostics := [] }
        match startExecutable w s2 nasmCommand with
        | (Except.error e, s3, ev2) => (Except.error e, s3, ev0 ++ ev1 ++ ev2)
        | (Except.ok _, s3, ev2) =>
          match startExecutable w s3 alinkCommand with
          | (Except.error e, s4, ev3) => (Except.error e, s4, ev0 ++ ev1 ++ ev2 ++ ev3)
          | (Except.ok _, s4, ev3) =>
            (Except.ok (),
             { s4 with currentDebugFileExecutable := fileExecutableNameOf currentFile },
             ev0 ++ ev1 ++ ev2 ++ ev3 ++ [Event.termSend runCmd])

/-- Embedding of `stopCommand` (source lines 308-310): it awaits
`stopDebugging` and nothing else. -/
def stopCommand (w : World) (s : SessionState) : Except String Unit × SessionState × List Event :=
  stopDebugging w s

/-- Boolean success test for a settled promise. -/
def exceptIsOk {α : Type} : Except String α → Bool
  | Except.ok _ => true
  | Except.error _ => false

theorem killExecutable_isOk (w : World) (n : String)
    (h : (w.exec "tasklist").error = none) :
    exceptIsOk (killExecutable w n).1 = true := by
  unfold killExecutable
  simp only [h]
  split
  · split <;> rfl
  · rfl

theorem killExecutable_events (w : World) (n : String) :
    ∀ ev ∈ (killExecutable w n).2,
      ev = Event.spawn "tasklist" ∨ ev = Event.spawn (taskkillCmd n) := by
  intro ev hev
  unfold killExecutable at hev
  dsimp only at hev
  split at hev
  · simp only [List.mem_cons, List.not_mem_nil, or_false] at hev
    exact hev
  · split at hev <;>
    · simp only [List.mem_singleton] at hev
      exact Or.inl hev

theorem stopDebugging_ok (w : World) (s : SessionState)
    (h : (w.exec "tasklist").error = none) :
    (stopDebugging w s).1 = Except.ok () ∧
      (stopDebugging w s).2.1 =
        { s with running := false, stoppingExecutable := false } := by
  have h1 := killExecutable_isOk w "ollydbg.exe" h
  have h2 := killExecutable_isOk w s.currentDebugFileExecutable h
  unfold stopDebugging
  dsimp only
  split
  · rename_i e heq
    rw [heq] at h1
    simp [exceptIsOk] at h1
  · split
    · split
      · rename_i e heq
        rw [heq] at h2
        simp [exceptIsOk] at h2
      · exact ⟨rfl, rfl⟩
    · exact ⟨rfl, rfl⟩

theorem stopDebugging_events (w : World) (s : SessionState) :
    ∀ ev ∈ (stopDebugging w s).2.2,
      ev = Event.spawn "tasklist" ∨ ev = Event.spawn (taskkillCmd "ollydbg.exe") ∨
        ev = Event.spawn (taskkillCmd s.currentDebugFileExecutable) := by
  intro ev hev
  unfold stopDebugging at hev
  dsimp only at hev
  split at hev
  · rename_i heq
    have := killExecutable_events w "ollydbg.exe" ev
    rw [heq] at this
    rcases this hev with h | h
    · exact Or.inl h
    · exact Or.inr (Or.inl h)
  · rename_i heq
    split at hev
    · split at hev <;>
      · rename_i heq2
        simp only [List.mem_append] at hev
        rcases hev with hev | hev
        · have := killExecutable_events w "ollydbg.exe" ev
          rw [heq] at this
          rcases this hev with h | h
          · exact Or.inl h
          · exact Or.inr (Or.inl h)
        · have := killExecutable_events w s.currentDebugFileExecutable ev
          rw [heq2] at this
          rcases this hev with h | h
          · exact Or.inl h
          · exact Or.inr (Or.inr h)
    · have := killExecutable_events w "ollydbg.exe" ev
      rw [heq] at this
      rcases this hev with h | h
      · exact Or.inl h
      · exact Or.inr (Or.inl h)

theorem startExecutable_frame (w : World) (s : SessionState) (c : String) :
    (startExecutable w s c).2.1.running = s.running ∧
      (startExecutable w s c).2.1.currentDebugFileExecutable = s.currentDebugFileExecutable ∧
      (startExecutable w s c).2.1.stoppingExecutable = s.stoppingExecutable := by
  unfold startExecutable
  dsimp only
  split
  · split
    · split
      · split <;> exact ⟨rfl, rfl, rfl⟩
      · exact ⟨rfl, rfl, rfl⟩
    · exact ⟨rfl, rfl, rfl⟩
  · exact ⟨rfl, rfl, rfl⟩

theorem startExecutable_ok_of_none (w : World) (s : SessionState) (c : String)
    (h : (w.exec c).error = none) :
    startExecutable w s c = (Except.ok (w.exec c).stdout, s, [Event.spawn c]) := by
  unfold startExecutable
  simp only [h]

theorem startExecutable_stopping (w : World) (s : SessionState) (c : String)
    (h : s.stoppingExecutable = true) :
    startExecutable w s c = (Except.ok (w.exec c).stdout, s, [Event.spawn c]) := by
  unfold startExecutable
  dsimp only
  split
  · rw [h]
    simp only [Bool.true_eq_false, if_false]
  · rfl

theorem startExecutable_error_of_not_ok (w : World) (s : SessionState) (c : String)
    (h : exceptIsOk (startExecutable w s c).1 = false) :
    (w.exec c).error.isSome = true := by
  cases he : (w.exec c).error with
  | some m => rfl
  | none =>
    rw [startExecutable_ok_of_none w s c he] at h
    simp [exceptIsOk] at h

theorem startExecutable_events (w : World) (s : SessionState) (c : String) :
    ∀ ev ∈ (startExecutable w s c).2.2,
      ev = Event.spawn c ∨ ∃ m, ev = Event.notify m := by
  intro ev hev
  unfold startExecutable at hev
  dsimp only at hev
  split at hev
  · split at hev
    · split at hev
      · split at hev
        · simp only [List.mem_cons, List.not_mem_nil, or_false] at hev
          rcases hev with h | h
          · exact Or.inl h
          · exact Or.inr ⟨_, h⟩
        · simp only [List.mem_singleton] at hev
          exact Or.inl hev
      · simp only [List.mem_singleton] at hev
        exact Or.inl hev
    · simp only [List.mem_singleton] at hev
      exact Or.inl hev
  · simp only [List.mem_singleton] at hev
    exact Or.inl hev

theorem getExecutablePath_events (w : World) :
    ∀ ev ∈ (getExecutablePath w).2, ∃ m, ev = Event.notify m := by
  intro ev hev
  unfold getExecutablePath at hev
  split at hev
  · cases hev
  · split at hev <;>
    · simp only [List.mem_singleton] at hev
      exact ⟨_, hev⟩

theorem strHead {a : String} (b : String) {ch : Char}
    (hc : a.data.head? = some ch) : (a ++ b).data.head? = some ch := by
  rw [String.data_append, List.head?_append_of_ne_nil]
  · exact hc
  · intro hnil
    rw [hnil] at hc
    cases hc

theorem strLast (a : String) {b : String} {ch : Char}
    (hc : b.data.getLast? = some ch) : (a ++ b).data.getLast? = some ch := by
  rw [String.data_append, List.getLast?_append_of_ne_nil]
  · exact hc
  · intro hnil
    rw [hnil] at hc
    cases hc

theorem alink_head (p o : String) (c : Bool) :
    (alinkCommandOf p o c).data.head? = some '"' := by
  cases c <;>
  · unfold alinkCommandOf
    exact strHead _ (strHead _ (strHead _ (strHead _ rfl)))

theorem alink_last (p o : String) (c : Bool) :
    (alinkCommandOf p o c).data.getLast? = some '"' := by
  cases c <;>
  · unfold alinkCommandOf
    exact strLast _ rfl

theorem nasm_last (p f lst : String) :
    (nasmCommandOf p f lst).data.getLast? = some '\\' := by
  unfold nasmCommandOf
  exact strLast _ rfl

theorem taskkill_head (n : String) :
    (taskkillCmd n).data.head? = some 't' := by
  unfold taskkillCmd
  exact strHead _ rfl

theorem alink_ne_tasklist (p o : String) (c : Bool) :
    alinkCommandOf p o c ≠ "tasklist" := by
  intro h
  have := alink_head p o c
  rw [h] at this
  cases this

theorem alink_ne_taskkill (p o : String) (c : Bool) (n : String) :
    alinkCommandOf p o c ≠ taskkillCmd n := by
  intro h
  have h1 := alink_head p o c
  rw [h, taskkill_head n] at h1
  cases h1

theorem alink_ne_nasm (p o : String) (c : Bool) (q f lst : String) :
    alinkCommandOf p o c ≠ nasmCommandOf q f lst := by
  intro h
  have h1 := alink_last p o c
  rw [h, nasm_last q f lst] at h1
  cases h1

theorem jsSlice3_append (b e : String) (he : e.length = 3) :
    jsSlice3 (b ++ e) = b := by
  unfold jsSlice3
  rw [String.data_append, List.length_append]
  have he3 : e.data.length = 3 := he
  rw [he3, Nat.add_sub_cancel, List.take_left]

/-- Presence of the `/:(\d+):/` pattern in a character list, stated
declaratively: some colon is followed by a non-empty digit run and
another colon. -/
def HasColonNumPattern (l : List Char) : Prop :=
  ∃ pre ds post, l = pre ++ ':' :: (ds ++ ':' :: post) ∧ ds ≠ [] ∧ ds.all Char.isDigit = true

theorem takeWhile_all_append {p : Char → Bool} :
    ∀ (ds : List Char), ds.all p = true → ∀ (x : Char), p x = false → ∀ (post : List Char),
      (ds ++ x :: post).takeWhile p = ds ∧ (ds ++ x :: post).dropWhile p = x :: post := by
  intro ds
  induction ds with
  | nil =>
    intro _ x hx post
    constructor
    · simp [List.takeWhile_cons, hx]
    · simp [List.dropWhile_cons, hx]
  | cons d ds ih =>
    intro hall x hx post
    rw [List.all_cons, Bool.and_eq_true] at hall
    have h1 := ih hall.2 x hx post
    constructor
    · rw [List.cons_append, List.takeWhile_cons, if_pos hall.1, h1.1]
    · rw [List.cons_append, List.dropWhile_cons, if_pos hall.1, h1.2]

theorem findColonNum_some_spec :
    ∀ (l ds : List Char), findColonNum l = some ds →
      ds ≠ [] ∧ ds.all Char.isDigit = true ∧
        ∃ pre post, l = pre ++ ':' :: (ds ++ ':' :: post) := by
  intro l
  induction l with
  | nil => intro ds h; cases h
  | cons c rest ih =>
    intro ds h
    unfold findColonNum at h
    dsimp only at h
    split at h
    · rename_i hc
      split at h
      · rename_i hcond
        injection h with hds
        subst hds
        refine ⟨hcond.1, List.all_takeWhile, [], (rest.dropWhile Char.isDigit).tail, ?_⟩
        have hsplit := List.takeWhile_append_dropWhile (p := Char.isDigit) (l := rest)
        have hdrop := List.eq_cons_of_mem_head? (Option.mem_def.mpr hcond.2)
        rw [hc, List.nil_append]
        conv_lhs => rw [← hsplit, hdrop]
      · rcases ih ds h with ⟨h1, h2, pre, post, h3⟩
        exact ⟨h1, h2, c :: pre, post, by rw [h3, List.cons_append]⟩
    · rcases ih ds h with ⟨h1, h2, pre, post, h3⟩
      exact ⟨h1, h2, c :: pre, post, by rw [h3, List.cons_append]⟩

theorem findColonNum_none_spec :
    ∀ (l : List Char), findColonNum l = none → ¬ HasColonNumPattern l := by
  intro l
  induction l with
  | nil =>
    intro _ hpat
    rcases hpat with ⟨pre, ds, post, heq, _, _⟩
    cases pre <;> cases heq
  | cons c rest ih =>
    intro h hpat
    rcases hpat with ⟨pre, ds, post, heq, hne, hdig⟩
    unfold findColonNum at h
    dsimp only at h
    cases pre with
    | nil =>
      rw [List.nil_append] at heq
      injection heq with hc hrest
      rw [if_pos hc] at h
      have htd := takeWhile_all_append ds hdig ':' (by decide) post
      rw [← hrest] at htd
      rw [if_pos ⟨by rw [htd.1]; exact hne, by rw [htd.2]; rfl⟩] at h
      cases h
    | cons q pre2 =>
      rw [List.cons_append] at heq
      injection heq with hc hrest
      have hrestpat : HasColonNumPattern rest := ⟨pre2, ds, post, hrest, hne, hdig⟩
      split at h
      · split at h
        · cases h
        · exact ih h hrestpat
      · exact ih h hrestpat

/-- C4: for every source file path ending in a 3-character extension, the
derived build-artifact paths are exactly the path with its final three
characters replaced by lst, obj and exe (siblings with only the extension
changed), and the derivation used by runCommand is the same as the one
used by debugCommand. -/
theorem C4_artifact_derivation (base ext : String) (he : ext.length = 3) :
    debugArtifacts (base ++ "." ++ ext) =
      (base ++ ".lst", base ++ ".obj", base ++ ".exe") ∧
    runArtifacts (base ++ "." ++ ext) =
      (base ++ ".lst", base ++ ".obj", base ++ ".exe") ∧
    ∀ q : String, runArtifacts q = debugArtifacts q := by
  have hs : jsSlice3 (base ++ "." ++ ext) = base ++ "." := jsSlice3_append (base ++ ".") ext he
  have hl : (base ++ ".") ++ "lst" = base ++ ".lst" := by
    rw [String.append_assoc]
    rfl
  have ho : (base ++ ".") ++ "obj" = base ++ ".obj" := by
    rw [String.append_assoc]
    rfl
  have hx : (base ++ ".") ++ "exe" = base ++ ".exe" := by
    rw [String.append_assoc]
    rfl
  refine ⟨?_, ?_, fun q => rfl⟩
  · unfold debugArtifacts
    rw [hs, hl, ho, hx]
  · unfold runArtifacts
    rw [hs, hl, ho, hx]

theorem C4_artifact_derivation_witness :
    ("asm" : String).length = 3 ∧
    debugArtifacts ("C:\\prog" ++ "." ++ "asm") =
      ("C:\\prog" ++ ".lst", "C:\\prog" ++ ".obj", "C:\\prog" ++ ".exe") :=
  ⟨by decide, (C4_artifact_derivation "C:\\prog" "asm" (by decide)).1⟩

/-- C5: the Error Locator splits the error text into lines and examines
only the second line: with fewer than two lines it returns none; when the
second line contains the colon-digits-colon pattern it returns the matched
digit run as a number together with the whole second line; otherwise it
returns none; and on the text of two lines whose second line is
file.asm:17: error message it returns line 17 with that second line. -/
theorem C5_error_locator :
    (∀ t : String, (jsSplitStr t '\n').length < 2 → locate t = none) ∧
    (∀ t : String, ∀ h : 1 < (jsSplitStr t '\n').length,
      (¬ HasColonNumPattern ((jsSplitStr t '\n').get ⟨1, h⟩).data → locate t = none) ∧
      (HasColonNumPattern ((jsSplitStr t '\n').get ⟨1, h⟩).data →
        ∃ ds pre post,
          ((jsSplitStr t '\n').get ⟨1, h⟩).data = pre ++ ':' :: (ds ++ ':' :: post) ∧
          ds ≠ [] ∧ ds.all Char.isDigit = true ∧
          locate t = some (digitsToNat ds, (jsSplitStr t '\n').get ⟨1, h⟩))) ∧
    locate "line1\nfile.asm:17: error message" =
      some (17, "file.asm:17: error message") := by
  refine ⟨?_, ?_, by decide⟩
  · intro t ht
    unfold locate
    dsimp only
    rw [dif_neg (by omega)]
  · intro t h
    constructor
    · intro hno
      unfold locate
      dsimp only
      rw [dif_pos h]
      cases hfind : findColonNum ((jsSplitStr t '\n').get ⟨1, h⟩).data with
      | none => rfl
      | some ds =>
        rcases findColonNum_some_spec _ ds hfind with ⟨h1, h2, pre, post, h3⟩
        exact absurd ⟨pre, ds, post, h3, h1, h2⟩ hno
    · intro hyes
      cases hfind : findColonNum ((jsSplitStr t '\n').get ⟨1, h⟩).data with
      | none => exact absurd hyes (findColonNum_none_spec _ hfind)
      | some ds =>
        rcases findColonNum_some_spec _ ds hfind with ⟨h1, h2, pre, post, h3⟩
        refine ⟨ds, pre, post, h3, h1, h2, ?_⟩
        unfold locate
        dsimp only
        rw [dif_pos h, hfind]

theorem C5_error_locator_witness :
    (jsSplitStr "oneline" '\n').length < 2 ∧ locate "oneline" = none :=
  ⟨by decide, C5_error_locator.1 "oneline" (by decide)⟩

/-- C7: a process invocation that ends with a failing exit while the
intentional-termination flag is set completes as if successful — no
rejection, no diagnostic, no notification, state unchanged — whereas the
same failing exit with no stop in progress is surfaced to the caller as
a rejection. -/
theorem C7_intentional_stop_suppression (w : World) (s : SessionState) (c msg : String)
    (he : (w.exec c).error = some msg) :
    (s.stoppingExecutable = true →
      startExecutable w s c = (Except.ok (w.exec c).stdout, s, [Event.spawn c])) ∧
    (s.stoppingExecutable = false → exceptIsOk (startExecutable w s c).1 = false) := by
  constructor
  · intro hs
    exact startExecutable_stopping w s c hs
  · intro hs
    unfold startExecutable
    dsimp only
    rw [he]
    dsimp only
    rw [if_pos hs]
    split
    · split <;> rfl
    · rfl

def cwBoom : World := ⟨"", "", none, false, fun _ => ⟨some "boom", "out"⟩⟩

def csStopping : SessionState := ⟨"", true, false, []⟩

def csIdle : SessionState := ⟨"", false, false, []⟩

theorem C7_intentional_stop_suppression_witness :
    startExecutable cwBoom csStopping "cmd" =
      (Except.ok "out", csStopping, [Event.spawn "cmd"]) ∧
    exceptIsOk (startExecutable cwBoom csIdle "cmd").1 = false :=
  ⟨(C7_intentional_stop_suppression cwBoom csStopping "cmd" "boom" rfl).1 rfl,
   (C7_intentional_stop_suppression cwBoom csIdle "cmd" "boom" rfl).2 rfl⟩

/-- C10: inside killExecutable the two internal commands are handled
asymmetrically — an error of the force-kill command still resolves the
operation with the marker value "error", while an error of the
process-listing command rejects the operation with that error. -/
theorem C10_kill_asymmetry (w : World) (n e : String) :
    ((w.exec "tasklist").error = none →
      includesCI (w.exec "tasklist").stdout n = true →
      ((w.exec (taskkillCmd n)).error).isSome = true →
      (killExecutable w n).1 = Except.ok "error") ∧
    ((w.exec "tasklist").error = some e →
      (killExecutable w n).1 = Except.error e) := by
  constructor
  · intro h1 h2 h3
    unfold killExecutable
    dsimp only
    rw [if_pos h2, h1]
    cases hk : (w.exec (taskkillCmd n)).error with
    | none => rw [hk] at h3; cases h3
    | some ke => rfl
  · intro h1
    unfold killExecutable
    dsimp only
    split
    · rw [h1]
    · rw [h1]

def cwKillFail : World :=
  ⟨"", "", none, false,
    fun c => if c = "tasklist" then ⟨none, "x foo.exe y"⟩ else ⟨some "kill failed", ""⟩⟩

def cwListFail : World := ⟨"", "", none, false, fun _ => ⟨some "tasklist failed", ""⟩⟩

theorem C10_kill_asymmetry_witness :
    (killExecutable cwKillFail "foo.exe").1 = Except.ok "error" ∧
    (killExecutable cwListFail "foo.exe").1 = Except.error "tasklist failed" :=
  ⟨(C10_kill_asymmetry cwKillFail "foo.exe" "x").1 rfl (by decide) rfl,
   (C10_kill_asymmetry cwListFail "foo.exe" "tasklist failed").2 rfl⟩

theorem spawn_in_stop_events (w : World) (s : SessionState) (c : String)
    (h : Event.spawn c ∈ (stopDebugging w s).2.2) :
    c = "tasklist" ∨ ∃ n, c = taskkillCmd n := by
  rcases stopDebugging_events w s _ h with h1 | h1 | h1
  · injection h1 with h2
    exact Or.inl h2
  · injection h1 with h2
    exact Or.inr ⟨_, h2⟩
  · injection h1 with h2
    exact Or.inr ⟨_, h2⟩

theorem spawn_not_in_getPath_events (w : World) (c : String)
    (h : Event.spawn c ∈ (getExecutablePath w).2) : False := by
  rcases getExecutablePath_events w _ h with ⟨m, hm⟩
  cases hm

def cwNoPath : World := ⟨"", "", some "C:\\a.asm", true, fun _ => ⟨none, ""⟩⟩

def csRunning : SessionState := ⟨"", false, true, []⟩

/-- C1 counterexample: with the toolchain root unset and a session marked
running, invoking run() still spawns the process-listing command and
resets the running flag to false, contradicting "spawns no process and
performs no state change". -/
theorem C1_counterexample :
    csRunning.running = true ∧
    (runCommand cwNoPath csRunning).2.1.running = false ∧
    Event.spawn "tasklist" ∈ (runCommand cwNoPath csRunning).2.2 := by
  refine ⟨rfl, by decide, by decide⟩

def cwDbgFail : World :=
  ⟨"C:\\t", "", some "C:\\a.asm", true,
    fun c => if c = ollydbgCommandOf "C:\\t" "C:\\a.exe" then ⟨some "boom", ""⟩
             else ⟨none, ""⟩⟩

def csIdle2 : SessionState := ⟨"", false, false, []⟩

/-- C2 counterexample: when the debugger launch itself fails while no stop
is in progress, debug() ends with the running flag still true, so the flag
is not false on every exit path of debug(). -/
theorem C2_counterexample :
    csIdle2.running = false ∧
    exceptIsOk (debugCommand cwDbgFail csIdle2).1 = false ∧
    (debugCommand cwDbgFail csIdle2).2.1.running = true := by
  refine ⟨rfl, by decide, by decide⟩

/-- C3 counterexample: an error of the process-listing command makes
killExecutable reject, so the operation does not complete normally for
every outcome of the underlying commands. -/
theorem C3_counterexample :
    exceptIsOk (killExecutable cwListFail "foo.exe").1 = false := by
  decide

def cwDbgListed : World :=
  ⟨"", "", none, true,
    fun c => if c = "tasklist" then ⟨none, "System Ollydbg.exe 123"⟩ else ⟨none, ""⟩⟩

/-- C9 counterexample: run() does attempt to terminate the debugger
process — its stopping phase spawns taskkill for ollydbg.exe whenever the
listing shows it running — contradicting "ensureStopped on the previously
tracked target name only". -/
theorem C9_counterexample :
    Event.spawn (taskkillCmd "ollydbg.exe") ∈ (runCommand cwDbgListed csIdle2).2.2 := by
  decide

/-- C1 amended: when the toolchain path resolves to empty or no editor is
active, run() and debug() report the specific missing precondition,
complete normally, spawn no build, link or launch process (the initial
stopping phase still runs the terminator's listing and kill utilities),
and leave the tracked target name and the diagnostics unchanged; the
running flag, however, is reset to false by the stopping phase rather
than left as it was. -/
theorem C1_amended_preconditions (w : World) (s : SessionState)
    (hpre : pathOf w = "" ∨ w.activeFile = none)
    (htask : (w.exec "tasklist").error = none) :
    ((runCommand w s).1 = Except.ok () ∧
     (runCommand w s).2.1.currentDebugFileExecutable = s.currentDebugFileExecutable ∧
     (runCommand w s).2.1.diagnostics = s.diagnostics ∧
     (runCommand w s).2.1.running = false ∧
     (∀ c, Event.spawn c ∈ (runCommand w s).2.2 →
        c = "tasklist" ∨ ∃ n, c = taskkillCmd n) ∧
     (pathOf w = "" → Event.notify "No executable path set!" ∈ (runCommand w s).2.2) ∧
     (pathOf w ≠ "" → Event.notify "No active editor!" ∈ (runCommand w s).2.2)) ∧
    ((debugCommand w s).1 = Except.ok () ∧
     (debugCommand w s).2.1.currentDebugFileExecutable = s.currentDebugFileExecutable ∧
     (debugCommand w s).2.1.diagnostics = s.diagnostics ∧
     (debugCommand w s).2.1.running = false ∧
     (∀ c, Event.spawn c ∈ (debugCommand w s).2.2 →
        c = "tasklist" ∨ ∃ n, c = taskkillCmd n) ∧
     (pathOf w = "" → Event.notify "No executable path set!" ∈ (debugCommand w s).2.2) ∧
     (pathOf w ≠ "" → Event.notify "No active editor!" ∈ (debugCommand w s).2.2)) := by
  obtain ⟨hr0, hst⟩ := stopDebugging_ok w s htask
  rcases hstop : stopDebugging w s with ⟨r0, s1, ev0⟩
  rw [hstop] at hr0 hst
  dsimp only at hr0 hst
  subst hr0
  subst hst
  constructor
  · unfold runCommand
    rw [hstop]
    dsimp only
    by_cases hp : (getExecutablePath w).1 = ""
    · rw [if_pos hp]
      refine ⟨rfl, rfl, rfl, rfl, ?_, ?_, ?_⟩
      · intro c hc
        rcases List.mem_append.1 hc with hc | hc
        · rcases List.mem_append.1 hc with hc | hc
          · exact spawn_in_stop_events w s c (by rw [hstop]; exact hc)
          · exact absurd hc (fun hx => spawn_not_in_getPath_events w c hx)
        · simp only [List.mem_singleton] at hc
          cases hc
      · intro _
        exact List.mem_append.2 (Or.inr (by simp))
      · intro h
        exact absurd hp h
    · rcases hpre with hpre | hpre
      · exact absurd hpre hp
      · rw [if_neg hp, hpre]
        refine ⟨rfl, rfl, rfl, rfl, ?_, ?_, ?_⟩
        · intro c hc
          rcases List.mem_append.1 hc with hc | hc
          · rcases List.mem_append.1 hc with hc | hc
            · exact spawn_in_stop_events w s c (by rw [hstop]; exact hc)
            · exact absurd hc (fun hx => spawn_not_in_getPath_events w c hx)
          · simp only [List.mem_singleton] at hc
            cases hc
        · intro h
          exact absurd h hp
        · intro _
          exact List.mem_append.2 (Or.inr (by simp))
  · unfold debugCommand
    rw [hstop]
    dsimp only
    by_cases hp : (getExecutablePath w).1 = ""
    · rw [if_pos hp]
      refine ⟨rfl, rfl, rfl, rfl, ?_, ?_, ?_⟩
      · intro c hc
        rcases List.mem_append.1 hc with hc | hc
        · rcases List.mem_append.1 hc with hc | hc
          · exact spawn_in_stop_events w s c (by rw [hstop]; exact hc)
          · exact absurd hc (fun hx => spawn_not_in_getPath_events w c hx)
        · simp only [List.mem_singleton] at hc
          cases hc
      · intro _
        exact List.mem_append.2 (Or.inr (by simp))
      · intro h
        exact absurd hp h
    · rcases hpre with hpre | hpre
      · exact absurd hpre hp
      · rw [if_neg hp, hpre]
        refine ⟨rfl, rfl, rfl, rfl, ?_, ?_, ?_⟩
        · intro c hc
          rcases List.mem_append.1 hc with hc | hc
          · rcases List.mem_append.1 hc with hc | hc
            · exact spawn_in_stop_events w s c (by rw [hstop]; exact hc)
            · exact absurd hc (fun hx => spawn_not_in_getPath_events w c hx)
          · simp only [List.mem_singleton] at hc
            cases hc
        · intro h
          exact absurd h hp
        · intro _
          exact List.mem_append.2 (Or.inr (by simp))

theorem C1_amended_preconditions_witness :
    (runCommand cwNoPath csRunning).1 = Except.ok () ∧
    (runCommand cwNoPath csRunning).2.1.currentDebugFileExecutable = "" ∧
    (runCommand cwNoPath csRunning).2.1.diagnostics = [] ∧
    (runCommand cwNoPath csRunning).2.1.running = false :=
  And.intro (C1_amended_preconditions cwNoPath csRunning (Or.inl rfl) rfl).1.1
    (And.intro (C1_amended_preconditions cwNoPath csRunning (Or.inl rfl) rfl).1.2.1
      (And.intro (C1_amended_preconditions cwNoPath csRunning (Or.inl rfl) rfl).1.2.2.1
        (C1_amended_preconditions cwNoPath csRunning (Or.inl rfl) rfl).1.2.2.2.1))

theorem startExecutable_state_eq {w : World} {s : SessionState} {c : String}
    {r : Except String String} {s2 : SessionState} {ev : List Event}
    (h : startExecutable w s c = (r, s2, ev)) :
    s2.running = s.running ∧
      s2.currentDebugFileExecutable = s.currentDebugFileExecutable ∧
      s2.stoppingExecutable = s.stoppingExecutable := by
  have hf := startExecutable_frame w s c
  rw [h] at hf
  exact hf

theorem startExecutable_error_exec {w : World} {s : SessionState} {c e : String}
    {s2 : SessionState} {ev : List Event}
    (h : startExecutable w s c = (Except.error e, s2, ev)) :
    ((w.exec c).error).isSome = true := by
  apply startExecutable_error_of_not_ok w s c
  rw [h]
  rfl

/-- C2 amended: provided the initial stopping phase completes (the
process-listing command does not itself fail), the running flag is false
when run() and stop() end on every exit path, and is false when debug()
completes normally; debug() can end with the flag still true only when it
was rejected and the debugger launch itself returned an error while no
stop was in progress — the flag is set before the launch and reset only
on its successful completion. -/
theorem C2_amended_running_flag (w : World) (s : SessionState)
    (htask : (w.exec "tasklist").error = none) :
    (runCommand w s).2.1.running = false ∧
    (stopCommand w s).2.1.running = false ∧
    (exceptIsOk (debugCommand w s).1 = true → (debugCommand w s).2.1.running = false) ∧
    ((debugCommand w s).2.1.running = true →
      exceptIsOk (debugCommand w s).1 = false ∧
      ∃ f, w.activeFile = some f ∧ pathOf w ≠ "" ∧
        ((w.exec (ollydbgCommandOf (pathOf w) (debugArtifacts f).2.2)).error).isSome = true) := by
  obtain ⟨hr0, hst⟩ := stopDebugging_ok w s htask
  rcases hstop : stopDebugging w s with ⟨r0, s1, ev0⟩
  rw [hstop] at hr0 hst
  dsimp only at hr0 hst
  subst hr0
  subst hst
  have hrun : (runCommand w s).2.1.running = false := by
    unfold runCommand
    rw [hstop]
    dsimp only
    by_cases hp : (getExecutablePath w).1 = ""
    · rw [if_pos hp]
    · cases hfile : w.activeFile with
      | none => rw [if_neg hp]
      | some f =>
        rw [if_neg hp]
        dsimp only
        split
        · rename_i e s3 ev2 heq
          exact (startExecutable_state_eq heq).1
        · rename_i a s3 ev2 heq
          have hf3 := (startExecutable_state_eq heq).1
          split
          · rename_i e s4 ev3 heq2
            have hf4 := (startExecutable_state_eq heq2).1
            rw [hf4, hf3]
          · rename_i a2 s4 ev3 heq2
            have hf4 := (startExecutable_state_eq heq2).1
            show s4.running = false
            rw [hf4, hf3]
  have hstp : (stopCommand w s).2.1.running = false := by
    unfold stopCommand
    rw [hstop]
  have hdbg :
      (exceptIsOk (debugCommand w s).1 = true → (debugCommand w s).2.1.running = false) ∧
      ((debugCommand w s).2.1.running = true →
        exceptIsOk (debugCommand w s).1 = false ∧
        ∃ f, w.activeFile = some f ∧ pathOf w ≠ "" ∧
          ((w.exec (ollydbgCommandOf (pathOf w) (debugArtifacts f).2.2)).error).isSome = true) := by
    unfold debugCommand
    rw [hstop]
    dsimp only
    by_cases hp : (getExecutablePath w).1 = ""
    · rw [if_pos hp]
      exact ⟨fun _ => rfl, fun hr => by cases hr⟩
    · cases hfile : w.activeFile with
      | none =>
        rw [if_neg hp]
        exact ⟨fun _ => rfl, fun hr => by cases hr⟩
      | some f =>
        rw [if_neg hp]
        dsimp only
        split
        · rename_i e s3 ev2 heq
          have hf := (startExecutable_state_eq heq).1
          refine ⟨fun hok => ?_, fun hr => ?_⟩
          · cases hok
          · rw [hf] at hr
            cases hr
        · rename_i a s3 ev2 heq
          have hf3 := (startExecutable_state_eq heq).1
          split
          · rename_i e s4 ev3 heq2
            have hf4 := (startExecutable_state_eq heq2).1
            refine ⟨fun hok => ?_, fun hr => ?_⟩
            · cases hok
            · rw [hf4, hf3] at hr
              cases hr
          · rename_i a2 s4 ev3 heq2
            split
            · rename_i e s6 ev4 heq3
              refine ⟨fun hok => ?_, fun _ => ?_⟩
              · cases hok
              · refine ⟨rfl, f, rfl, hp, ?_⟩
                exact startExecutable_error_exec heq3
            · rename_i a3 s6 ev4 heq3
              exact ⟨fun _ => rfl, fun hr => by cases hr⟩
  exact ⟨hrun, hstp, hdbg.1, hdbg.2⟩

theorem C2_amended_running_flag_witness :
    (runCommand cwDbgFail csIdle2).2.1.running = false ∧
    ((debugCommand cwDbgFail csIdle2).2.1.running = true →
      exceptIsOk (debugCommand cwDbgFail csIdle2).1 = false) :=
  ⟨(C2_amended_running_flag cwDbgFail csIdle2 rfl).1,
   fun hr => ((C2_amended_running_flag cwDbgFail csIdle2 rfl).2.2.2 hr).1⟩

/-- C3 amended: ensureStopped (killExecutable) completes normally for
every outcome of the kill command — a kill error is swallowed — and when
the named process is not listed it resolves with the listing output after
running only the listing command, so repeated calls in that situation
produce no error and no further observable effect; an error of the
process-listing command itself, however, is the one case that propagates
to the caller as a rejection. -/
theorem C3_amended_ensure_stopped (w : World) (n : String) :
    ((w.exec "tasklist").error = none → exceptIsOk (killExecutable w n).1 = true) ∧
    ((w.exec "tasklist").error = none →
      includesCI (w.exec "tasklist").stdout n = false →
      killExecutable w n = (Except.ok (w.exec "tasklist").stdout, [Event.spawn "tasklist"])) ∧
    (∀ e, (w.exec "tasklist").error = some e →
      (killExecutable w n).1 = Except.error e) := by
  refine ⟨killExecutable_isOk w n, ?_, ?_⟩
  · intro h1 h2
    unfold killExecutable
    dsimp only
    rw [if_neg (by rw [h2]; exact Bool.false_ne_true), h1]
  · intro e h1
    unfold killExecutable
    dsimp only
    split
    · rw [h1]
    · rw [h1]

def cwQuiet : World := ⟨"", "", none, false, fun _ => ⟨none, "no processes"⟩⟩

theorem C3_amended_ensure_stopped_witness :
    exceptIsOk (killExecutable cwQuiet "foo.exe").1 = true ∧
    killExecutable cwQuiet "foo.exe" = (Except.ok "no processes", [Event.spawn "tasklist"]) :=
  ⟨(C3_amended_ensure_stopped cwQuiet "foo.exe").1 rfl,
   (C3_amended_ensure_stopped cwQuiet "foo.exe").2.1 rfl (by decide)⟩

theorem existsTail3 {α : Type} (a b c : List α) : ∃ t, a ++ b ++ c = a ++ t :=
  ⟨b ++ c, by simp only [List.append_assoc]⟩

theorem existsTail4 {α : Type} (a b c d : List α) : ∃ t, a ++ b ++ c ++ d = a ++ t :=
  ⟨b ++ (c ++ d), by simp only [List.append_assoc]⟩

theorem existsTail5 {α : Type} (a b c d e : List α) : ∃ t, a ++ b ++ c ++ d ++ e = a ++ t :=
  ⟨b ++ (c ++ (d ++ e)), by simp only [List.append_assoc]⟩

theorem existsTail6 {α : Type} (a b c d e f : List α) :
    ∃ t, a ++ b ++ c ++ d ++ e ++ f = a ++ t :=
  ⟨b ++ (c ++ (d ++ (e ++ f))), by simp only [List.append_assoc]⟩

/-- C9 amended: the Stopping phase of run() is the shared stopDebugging
routine — identical to the one debug() and stop() use — whose trace
starts with the attempt to terminate the debugger (ollydbg.exe) and, when
a target name is tracked and the debugger kill resolved, continues with
the kill of the previously tracked target executable name. -/
theorem C9_amended_stopping_phase (w : World) (s : SessionState) :
    (∃ t, (runCommand w s).2.2 = (stopDebugging w s).2.2 ++ t) ∧
    (∃ t, (debugCommand w s).2.2 = (stopDebugging w s).2.2 ++ t) ∧
    (stopCommand w s).2.2 = (stopDebugging w s).2.2 ∧
    (∃ t, (stopDebugging w s).2.2 = (killExecutable w "ollydbg.exe").2 ++ t) ∧
    (s.currentDebugFileExecutable ≠ "" →
      exceptIsOk (killExecutable w "ollydbg.exe").1 = true →
      (stopDebugging w s).2.2 =
        (killExecutable w "ollydbg.exe").2 ++
          (killExecutable w s.currentDebugFileExecutable).2) := by
  rcases hstop : stopDebugging w s with ⟨r0, s1, ev0⟩
  refine ⟨?_, ?_, ?_, ?_, ?_⟩
  · unfold runCommand
    rw [hstop]
    dsimp only
    cases r0 with
    | error e => exact ⟨[], by rw [List.append_nil]⟩
    | ok u =>
      dsimp only
      by_cases hp : (getExecutablePath w).1 = ""
      · rw [if_pos hp]
        dsimp only
        exact existsTail3 _ _ _
      · cases hfile : w.activeFile with
        | none =>
          rw [if_neg hp]
          dsimp only
          exact existsTail3 _ _ _
        | some f =>
          rw [if_neg hp]
          dsimp only
          split
          · dsimp only
            exact existsTail3 _ _ _
          · split
            · dsimp only
              exact existsTail4 _ _ _ _
            · dsimp only
              exact existsTail5 _ _ _ _ _
  · unfold debugCommand
    rw [hstop]
    dsimp only
    cases r0 with
    | error e => exact ⟨[], by rw [List.append_nil]⟩
    | ok u =>
      dsimp only
      by_cases hp : (getExecutablePath w).1 = ""
      · rw [if_pos hp]
        dsimp only
        exact existsTail3 _ _ _
      · cases hfile : w.activeFile with
        | none =>
          rw [if_neg hp]
          dsimp only
          exact existsTail3 _ _ _
        | some f =>
          rw [if_neg hp]
          dsimp only
          split
          · dsimp only
            exact existsTail3 _ _ _
          · split
            · dsimp only
              exact existsTail4 _ _ _ _
            · split
              · dsimp only
                exact existsTail5 _ _ _ _ _
              · dsimp only
                exact existsTail6 _ _ _ _ _ _
  · unfold stopCommand
    rw [hstop]
  · dsimp only
    unfold stopDebugging at hstop
    dsimp only at hstop
    rcases hk : killExecutable w "ollydbg.exe" with ⟨rk, evk⟩
    rw [hk] at hstop
    cases rk with
    | error e =>
      injection hstop with h1 h2
      injection h2 with h2a h2b
      rw [← h2b]
      exact ⟨[], by rw [List.append_nil]⟩
    | ok u =>
      dsimp only at hstop
      split at hstop
      · rcases hk2 : killExecutable w s.currentDebugFileExecutable with ⟨rk2, evk2⟩
        rw [hk2] at hstop
        cases rk2 with
        | error e =>
          injection hstop with h1 h2
          injection h2 with h2a h2b
          rw [← h2b]
          exact ⟨evk2, rfl⟩
        | ok u2 =>
          injection hstop with h1 h2
          injection h2 with h2a h2b
          rw [← h2b]
          exact ⟨evk2, rfl⟩
      · injection hstop with h1 h2
        injection h2 with h2a h2b
        rw [← h2b]
        exact ⟨[], by rw [List.append_nil]⟩
  · intro hname hok
    dsimp only
    unfold stopDebugging at hstop
    dsimp only at hstop
    rcases hk : killExecutable w "ollydbg.exe" with ⟨rk, evk⟩
    rw [hk] at hstop
    rw [hk] at hok
    cases rk with
    | error e => cases hok
    | ok u =>
      dsimp only at hstop
      rw [if_pos hname] at hstop
      rcases hk2 : killExecutable w s.currentDebugFileExecutable with ⟨rk2, evk2⟩
      rw [hk2] at hstop
      cases rk2 with
      | error e =>
        injection hstop with h1 h2
        injection h2 with h2a h2b
        rw [← h2b]
      | ok u2 =>
        injection hstop with h1 h2
        injection h2 with h2a h2b
        rw [← h2b]

def csTracked : SessionState := ⟨"prev.exe", false, false, []⟩

theorem C9_amended_stopping_phase_witness :
    (stopDebugging cwDbgListed csTracked).2.2 =
      (killExecutable cwDbgListed "ollydbg.exe").2 ++
        (killExecutable cwDbgListed "prev.exe").2 :=
  (C9_amended_stopping_phase cwDbgListed csTracked).2.2.2.2 (by decide) (by decide)

theorem startExecutable_error_eval (w : World) (s : SessionState) (c msg : String)
    (hs : s.stoppingExecutable = false) (he : (w.exec c).error = some msg) :
    startExecutable w s c =
      if h : 1 < (jsSplitStr msg '\n').length then
        match locate msg with
        | some (n, m) =>
          (Except.error ("Errors: " ++ m),
           { s with diagnostics :=
               setDiag s.diagnostics (w.activeFile.getD "") [⟨n - 1, m, Severity.error⟩] },
           [Event.spawn c, Event.notify ("Error: " ++ m)])
        | none =>
          (Except.error ("Errors: " ++ (jsSplitStr msg '\n').get ⟨1, h⟩), s, [Event.spawn c])
      else (Except.error ("Error: " ++ msg), s, [Event.spawn c]) := by
  unfold startExecutable
  dsimp only
  rw [he]
  dsimp only
  rw [if_pos hs]

theorem not_spawn_alink_of_stop (w : World) (s : SessionState) (p o : String) (c : Bool) :
    Event.spawn (alinkCommandOf p o c) ∉ (stopDebugging w s).2.2 := by
  intro h
  rcases spawn_in_stop_events w s _ h with h1 | ⟨n, h1⟩
  · exact alink_ne_tasklist p o c h1
  · exact alink_ne_taskkill p o c n h1

theorem delete_not_in_stop (w : World) (s : SessionState) (x : String) :
    Event.delete x ∉ (stopDebugging w s).2.2 := by
  intro h
  rcases stopDebugging_events w s _ h with h1 | h1 | h1 <;> cases h1

theorem delete_not_in_getPath (w : World) (x : String) :
    Event.delete x ∉ (getExecutablePath w).2 := by
  intro h
  rcases getExecutablePath_events w _ h with ⟨m, hm⟩
  cases hm

theorem delete_not_in_start (w : World) (s : SessionState) (c x : String) :
    Event.delete x ∉ (startExecutable w s c).2.2 := by
  intro h
  rcases startExecutable_events w s c _ h with h1 | ⟨m, h1⟩ <;> cases h1

/-- C6: when the assembler invocation of a debug build fails (the stopping
phase having completed and the preconditions holding), the command rejects
and the linker command is never spawned; if the Error Locator extracts a
line number n from the error text, exactly one error-severity diagnostic
is registered for the source file, at 0-based start line n - 1 (the
1-based line n), with the second error line as its message; otherwise the
failure is generic and the diagnostic collection stays empty. -/
theorem C6_assembler_failure (w : World) (s : SessionState) (f msg : String)
    (hf : w.activeFile = some f) (hp : pathOf w ≠ "")
    (htask : (w.exec "tasklist").error = none)
    (hnasm : (w.exec (nasmCommandOf (pathOf w) f (debugArtifacts f).1)).error = some msg) :
    exceptIsOk (debugCommand w s).1 = false ∧
    Event.spawn (alinkCommandOf (pathOf w) (debugArtifacts f).2.1 w.showTerminal) ∉
      (debugCommand w s).2.2 ∧
    (∀ n m, locate msg = some (n, m) →
      (debugCommand w s).2.1.diagnostics = [(f, [⟨n - 1, m, Severity.error⟩])]) ∧
    (locate msg = none → (debugCommand w s).2.1.diagnostics = []) := by
  have hp2 : ¬((getExecutablePath w).1 = "") := hp
  have hnasm2 :
      (w.exec (nasmCommandOf (getExecutablePath w).1 f (debugArtifacts f).1)).error =
        some msg := hnasm
  obtain ⟨hr0, hst⟩ := stopDebugging_ok w s htask
  rcases hstop : stopDebugging w s with ⟨r0, s1, ev0⟩
  rw [hstop] at hr0 hst
  dsimp only at hr0 hst
  subst hr0
  subst hst
  unfold debugCommand
  rw [hstop]
  dsimp only
  rw [if_neg hp2, hf]
  dsimp only
  have hval := startExecutable_error_eval w
    ⟨fileExecutableNameOf f, false, false, []⟩
    (nasmCommandOf (getExecutablePath w).1 f (debugArtifacts f).1) msg rfl hnasm2
  rw [hf] at hval
  rw [hval]
  cases hloc : locate msg with
  | some nm =>
    rcases nm with ⟨n, m⟩
    have hlen : 1 < (jsSplitStr msg '\n').length := by
      by_contra hlen
      unfold locate at hloc
      dsimp only at hloc
      rw [dif_neg hlen] at hloc
      cases hloc
    rw [dif_pos hlen]
    dsimp only
    refine ⟨rfl, ?_, ?_, ?_⟩
    · intro hmem
      rcases List.mem_append.1 hmem with h | h
      · rcases List.mem_append.1 h with h | h
        · exact not_spawn_alink_of_stop w s _ _ _ (by rw [hstop]; exact h)
        · exact spawn_not_in_getPath_events w _ h
      · simp only [List.mem_cons, List.not_mem_nil, or_false] at h
        rcases h with h | h
        · injection h with h2
          exact alink_ne_nasm _ _ _ _ _ _ h2
        · cases h
    · intro n2 m2 hloc2
      injection hloc2 with h3
      injection h3 with h4 h5
      subst h4
      subst h5
      rfl
    · intro hloc2
      cases hloc2
  | none =>
    by_cases hlen : 1 < (jsSplitStr msg '\n').length
    · rw [dif_pos hlen]
      dsimp only
      refine ⟨rfl, ?_, ?_, fun _ => rfl⟩
      · intro hmem
        rcases List.mem_append.1 hmem with h | h
        · rcases List.mem_append.1 h with h | h
          · exact not_spawn_alink_of_stop w s _ _ _ (by rw [hstop]; exact h)
          · exact spawn_not_in_getPath_events w _ h
        · simp only [List.mem_singleton] at h
          injection h with h2
          exact alink_ne_nasm _ _ _ _ _ _ h2
      · intro n2 m2 hloc2
        cases hloc2
    · rw [dif_neg hlen]
      dsimp only
      refine ⟨rfl, ?_, ?_, fun _ => rfl⟩
      · intro hmem
        rcases List.mem_append.1 hmem with h | h
        · rcases List.mem_append.1 h with h | h
          · exact not_spawn_alink_of_stop w s _ _ _ (by rw [hstop]; exact h)
          · exact spawn_not_in_getPath_events w _ h
        · simp only [List.mem_singleton] at h
          injection h with h2
          exact alink_ne_nasm _ _ _ _ _ _ h2
      · intro n2 m2 hloc2
        cases hloc2

def cwNasmFail : World :=
  ⟨"C:\\t", "", some "C:\\bad.asm", true,
    fun c =>
      if c = nasmCommandOf "C:\\t" "C:\\bad.asm" "C:\\bad.lst" then
        ⟨some "warning\nbad.asm:5: undefined symbol FOO", ""⟩
      else ⟨none, ""⟩⟩

theorem C6_assembler_failure_witness :
    exceptIsOk (debugCommand cwNasmFail csIdle2).1 = false ∧
    (debugCommand cwNasmFail csIdle2).2.1.diagnostics =
      [("C:\\bad.asm", [⟨4, "bad.asm:5: undefined symbol FOO", Severity.error⟩])] ∧
    Event.spawn
        (alinkCommandOf (pathOf cwNasmFail) (debugArtifacts "C:\\bad.asm").2.1
          cwNasmFail.showTerminal) ∉
      (debugCommand cwNasmFail csIdle2).2.2 :=
  ⟨(C6_assembler_failure cwNasmFail csIdle2 "C:\\bad.asm"
      "warning\nbad.asm:5: undefined symbol FOO" rfl (by decide) (by decide) (by decide)).1,
   (C6_assembler_failure cwNasmFail csIdle2 "C:\\bad.asm"
      "warning\nbad.asm:5: undefined symbol FOO" rfl (by decide) (by decide)
      (by decide)).2.2.1 5 "bad.asm:5: undefined symbol FOO" (by decide),
   (C6_assembler_failure cwNasmFail csIdle2 "C:\\bad.asm"
      "warning\nbad.asm:5: undefined symbol FOO" rfl (by decide) (by decide)
      (by decide)).2.1⟩

/-- C8: a successful debug() (with the preconditions met) deletes the
derived listing, object and executable files, while run() performs no
file deletion at all on any of its paths, so the artifacts of a
successful run build remain on disk. -/
theorem C8_cleanup (w : World) (s : SessionState) (f : String)
    (hf : w.activeFile = some f) (hp : pathOf w ≠ "")
    (hok : exceptIsOk (debugCommand w s).1 = true) :
    Event.delete (debugArtifacts f).1 ∈ (debugCommand w s).2.2 ∧
    Event.delete (debugArtifacts f).2.1 ∈ (debugCommand w s).2.2 ∧
    Event.delete (debugArtifacts f).2.2 ∈ (debugCommand w s).2.2 ∧
    (∀ x, Event.delete x ∉ (runCommand w s).2.2) := by
  have hp2 : ¬((getExecutablePath w).1 = "") := hp
  rcases hstop : stopDebugging w s with ⟨r0, s1, ev0⟩
  have hrun : ∀ x, Event.delete x ∉ (runCommand w s).2.2 := by
    intro x
    unfold runCommand
    rw [hstop]
    cases r0 with
    | error e =>
      intro h
      exact delete_not_in_stop w s x (by rw [hstop]; exact h)
    | ok u =>
      dsimp only
      by_cases hq : (getExecutablePath w).1 = ""
      · rw [if_pos hq]
        intro h
        rcases List.mem_append.1 h with h | h
        · rcases List.mem_append.1 h with h | h
          · exact delete_not_in_stop w s x (by rw [hstop]; exact h)
          · exact delete_not_in_getPath w x h
        · simp only [List.mem_singleton] at h
          cases h
      · rw [if_neg hq]
        cases hfile : w.activeFile with
        | none =>
          dsimp only
          intro h
          rcases List.mem_append.1 h with h | h
          · rcases List.mem_append.1 h with h | h
            · exact delete_not_in_stop w s x (by rw [hstop]; exact h)
            · exact delete_not_in_getPath w x h
          · simp only [List.mem_singleton] at h
            cases h
        | some g =>
          dsimp only
          split
          · rename_i e s3 ev2 heq
            intro h
            rcases List.mem_append.1 h with h | h
            · rcases List.mem_append.1 h with h | h
              · exact delete_not_in_stop w s x (by rw [hstop]; exact h)
              · exact delete_not_in_getPath w x h
            · exact delete_not_in_start w _ _ x (by rw [heq]; exact h)
          · rename_i a s3 ev2 heq
            split
            · rename_i e s4 ev3 heq2
              intro h
              rcases List.mem_append.1 h with h | h
              · rcases List.mem_append.1 h with h | h
                · rcases List.mem_append.1 h with h | h
                  · exact delete_not_in_stop w s x (by rw [hstop]; exact h)
                  · exact delete_not_in_getPath w x h
                · exact delete_not_in_start w _ _ x (by rw [heq]; exact h)
              · exact delete_not_in_start w _ _ x (by rw [heq2]; exact h)
            · rename_i a2 s4 ev3 heq2
              intro h
              rcases List.mem_append.1 h with h | h
              · rcases List.mem_append.1 h with h | h
                · rcases List.mem_append.1 h with h | h
                  · rcases List.mem_append.1 h with h | h
                    · exact delete_not_in_stop w s x (by rw [hstop]; exact h)
                    · exact delete_not_in_getPath w x h
                  · exact delete_not_in_start w _ _ x (by rw [heq]; exact h)
                · exact delete_not_in_start w _ _ x (by rw [heq2]; exact h)
              · simp only [List.mem_singleton] at h
                cases h
  refine ⟨?_, ?_, ?_, hrun⟩ <;>
  · unfold debugCommand at hok ⊢
    rw [hstop] at hok ⊢
    cases r0 with
    | error e => cases hok
    | ok u =>
      dsimp only at hok ⊢
      rw [if_neg hp2, hf] at hok ⊢
      dsimp only at hok ⊢
      split at hok
      · cases hok
      · split at hok
        · cases hok
        · split at hok
          · cases hok
          · refine List.mem_append.2 (Or.inr ?_)
            simp

def cwAllOk : World := ⟨"C:\\t", "", some "C:\\a.asm", true, fun _ => ⟨none, ""⟩⟩

theorem C8_cleanup_witness :
    Event.delete (debugArtifacts "C:\\a.asm").1 ∈ (debugCommand cwAllOk csIdle2).2.2 ∧
    Event.delete (debugArtifacts "C:\\a.asm").2.2 ∈ (debugCommand cwAllOk csIdle2).2.2 ∧
    (∀ x, Event.delete x ∉ (runCommand cwAllOk csIdle2).2.2) :=
  ⟨(C8_cleanup cwAllOk csIdle2 "C:\\a.asm" rfl (by decide) (by decide)).1,
   (C8_cleanup cwAllOk csIdle2 "C:\\a.asm" rfl (by decide) (by decide)).2.2.1,
   (C8_cleanup cwAllOk csIdle2 "C:\\a.asm" rfl (by decide) (by decide)).2.2.2⟩

end AsmRunner
